import Mathlib

/-!
Verification of the update-generator repository (src/main.py) against its
natural-language specification.  The Python source is shallowly embedded:
JSON-ish optional fields become the `Field` type (absent key / null value /
present value), the interactive revision loop of `review_and_post_summary`
becomes the state machine `runLoop` driven by the finite list of operator
inputs, and the two external effects (the OpenAI completion call and the
GitHub publish call) are supplied by oracles in `Env`, indexed by how many
calls have been made so far.  Traces of observable calls are recorded as
lists of `Ev`.
-/

namespace UpdateGenerator

/-- A Python dict field: the key can be absent, present with value `None`,
or present with a value.  Models the distinction between `d.get(k, dflt)`
returning the default (absent) and returning `None` (null). -/
inductive Field (α : Type) where
  | absent
  | null
  | val (a : α)
deriving DecidableEq, Repr

/-- The `user` object of a GitHub comment; only its `login` field is read
(src/main.py:196). -/
structure User where
  login : Field String
deriving DecidableEq, Repr

/-- A GitHub comment as consumed by `assemble_summary`: only the `user`
and `body` fields are read (src/main.py:196-197). -/
structure Comment where
  user : Field User
  body : Field String
deriving DecidableEq, Repr

/-- An entry of `issues_data` (src/main.py:345): `title` is always set by
`main`, `comments` is the fetched comment list. -/
structure Issue where
  title : String
  comments : List Comment
deriving DecidableEq, Repr

/-- Python `s[:n]` on a string: the first `n` codepoints. -/
def pyTruncate (s : String) (n : Nat) : String :=
  (s.toList.take n).asString

/-- The author string of src/main.py:196,
`c.get('user', {}).get('login', 'unknown')` interpolated into the f-string:
an absent `user` key yields the empty dict, hence `"unknown"`; a null
`user` raises `AttributeError` (modelled as `Except.error`); a null `login`
yields Python `None`, rendered by the f-string as `"None"`. -/
def commentAuthor (c : Comment) : Except Unit String :=
  match c.user with
  | Field.absent => Except.ok "unknown"
  | Field.null => Except.error ()
  | Field.val u =>
    match u.login with
    | Field.absent => Except.ok "unknown"
    | Field.null => Except.ok "None"
    | Field.val s => Except.ok s

/-- The body string of src/main.py:197, `c.get('body', '')[:200]`: an
absent `body` key yields `''`; a null `body` raises `TypeError` on the
slice (modelled as `Except.error`); otherwise the first 200 characters. -/
def commentBody (c : Comment) : Except Unit String :=
  match c.body with
  | Field.absent => Except.ok ""
  | Field.null => Except.error ()
  | Field.val s => Except.ok (pyTruncate s 200)

/-- One comment line of the context, src/main.py:196-198:
`f"- {user}: {body}\n"`, with the author computed before the body as in
the source. -/
def commentLine (c : Comment) : Except Unit String :=
  match commentAuthor c with
  | Except.error e => Except.error e
  | Except.ok a =>
    match commentBody c with
    | Except.error e => Except.error e
    | Except.ok b => Except.ok ("- " ++ a ++ ": " ++ b ++ "\n")

/-- The concatenation of all comment lines of one issue, src/main.py:194-198. -/
def commentsBlock : List Comment → Except Unit String
  | [] => Except.ok ""
  | c :: cs =>
    match commentLine c with
    | Except.error e => Except.error e
    | Except.ok l =>
      match commentsBlock cs with
      | Except.error e => Except.error e
      | Except.ok r => Except.ok (l ++ r)

/-- One issue's contribution to the context, src/main.py:193-199:
`f"Issue: {issue['title']}\n"`, the comment lines, then a blank line. -/
def issueBlock (i : Issue) : Except Unit String :=
  match commentsBlock i.comments with
  | Except.error e => Except.error e
  | Except.ok b => Except.ok ("Issue: " ++ i.title ++ "\n" ++ b ++ "\n")

/-- The context string built by the loop of src/main.py:191-199.  An
exception raised while processing any comment propagates out (it is caught
by the handler at src/main.py:213). -/
def assembleContext : List Issue → Except Unit String
  | [] => Except.ok ""
  | i :: is =>
    match issueBlock i with
    | Except.error e => Except.error e
    | Except.ok b =>
      match assembleContext is with
      | Except.error e => Except.error e
      | Except.ok r => Except.ok (b ++ r)

/-- The `message.content` of each choice of a chat-completions response;
`content` is `Optional[str]`, so `none` models a null content. -/
structure ChatResponse where
  choices : List (Option String)
deriving DecidableEq, Repr

/-- Result of one `client.chat.completions.create` call: the call either
raises or returns a response object. -/
inductive CallResult where
  | raise
  | response (r : ChatResponse)
deriving DecidableEq, Repr

/-- `response.choices[0].message.content` (src/main.py:211 and 282):
raises `IndexError` on an empty `choices` list, otherwise yields the first
choice's content verbatim — even when that content is null or empty. -/
def extractContent : ChatResponse → Except Unit (Option String)
  | ⟨[]⟩ => Except.error ()
  | ⟨c :: _⟩ => Except.ok c

/-- Observable external calls, in the order they are made. -/
inductive Ev where
  | compCall (sys usr : String)
  | pubCall (text : Option String)
  | reportErr
deriving DecidableEq, Repr

/-- How a run of the review loop (or the whole session) ends. -/
inductive Outcome where
  | published
  | publishFailed
  | aborted
  | blocked
  | fatalExit
deriving DecidableEq, Repr

/-- Oracles for the two external effects: `pubRes k` is the result of the
k-th `post_summary` call (0-based), `compRes k` the result of the k-th
completion call (0-based, counting the initial summary generation). -/
structure Env where
  pubRes : Nat → Bool
  compRes : Nat → CallResult
  instructions : String

/-- The three interactive states of `review_and_post_summary`: the initial
y/n prompt (src/main.py:260), the revision-instruction prompt
(src/main.py:268), and the y/n prompt on a revised summary
(src/main.py:287). -/
inductive Mode where
  | decision
  | instruction
  | revised
deriving DecidableEq, Repr

/-- The loop's mutable data: the current mode, the current `summary`
variable (an `Option` because `message.content` can be null), and how many
publish / completion calls have been made. -/
structure LoopState where
  mode : Mode
  summary : Option String
  pubCount : Nat
  compCount : Nat
deriving DecidableEq, Repr

/-- Python `str` rendering as used by the f-string at src/main.py:279:
`None` renders as `"None"`. -/
def pyStr : Option String → String
  | none => "None"
  | some s => s

/-- Python `.strip().lower()` (src/main.py:260, 269, 287): trim ASCII and
Unicode whitespace at both ends, then lowercase each character. -/
def norm (s : String) : String :=
  (((s.toList.dropWhile Char.isWhitespace).reverse.dropWhile
      Char.isWhitespace).reverse.map Char.toLower).asString

/-- The revision prompt of src/main.py:279. -/
def revPrompt (summary : Option String) (instruction : String) : String :=
  "Here is the current summary:\n" ++ pyStr summary ++
    "\n\nPlease revise it as follows: " ++ instruction

/-- The interactive loop of `review_and_post_summary` (src/main.py:259-297),
driven by the finite list of operator inputs.  Each step consumes one input;
an empty input list means the loop is blocked on `input()`.
  * `decision` (outer `while`, line 260): `'y'` posts and breaks either way
    (lines 261-264); `'n'` enters the inner loop (line 265); anything else
    re-prompts (line 297).
  * `instruction` (inner `while`, line 268): `'done'` returns (lines
    269-271); otherwise a completion call is attempted (lines 275-282) — on
    an exception (raised call or `choices[0]` IndexError) the error is
    printed and the inner loop re-prompts (lines 292-294); on success the
    summary is replaced by the content and the revised prompt follows.
  * `revised` (line 287): `'y'` posts — on success return (lines 288-290),
    on failure fall through to line 291 and re-prompt for an instruction;
    anything else also falls through to line 291. -/
def runLoop (env : Env) : LoopState → List String → List Ev × Outcome × LoopState
  | st, [] => ([], Outcome.blocked, st)
  | ⟨Mode.decision, sm, pc, cc⟩, i :: rest =>
    if norm i = "y" then
      ([Ev.pubCall sm],
        (if env.pubRes pc then Outcome.published else Outcome.publishFailed),
        ⟨Mode.decision, sm, pc + 1, cc⟩)
    else if norm i = "n" then
      runLoop env ⟨Mode.instruction, sm, pc, cc⟩ rest
    else
      runLoop env ⟨Mode.decision, sm, pc, cc⟩ rest
  | ⟨Mode.instruction, sm, pc, cc⟩, i :: rest =>
    if norm i = "done" then
      ([], Outcome.aborted, ⟨Mode.instruction, sm, pc, cc⟩)
    else
      match env.compRes cc with
      | CallResult.raise =>
        let next := runLoop env ⟨Mode.instruction, sm, pc, cc + 1⟩ rest
        (Ev.compCall env.instructions (revPrompt sm i) :: Ev.reportErr :: next.1,
          next.2.1, next.2.2)
      | CallResult.response r =>
        match extractContent r with
        | Except.error _ =>
          let next := runLoop env ⟨Mode.instruction, sm, pc, cc + 1⟩ rest
          (Ev.compCall env.instructions (revPrompt sm i) :: Ev.reportErr :: next.1,
            next.2.1, next.2.2)
        | Except.ok c =>
          let next := runLoop env ⟨Mode.revised, c, pc, cc + 1⟩ rest
          (Ev.compCall env.instructions (revPrompt sm i) :: next.1,
            next.2.1, next.2.2)
  | ⟨Mode.revised, sm, pc, cc⟩, i :: rest =>
    if norm i = "y" then
      if env.pubRes pc then
        ([Ev.pubCall sm], Outcome.published, ⟨Mode.revised, sm, pc + 1, cc⟩)
      else
        let next := runLoop env ⟨Mode.instruction, sm, pc + 1, cc⟩ rest
        (Ev.pubCall sm :: next.1, next.2.1, next.2.2)
    else
      runLoop env ⟨Mode.instruction, sm, pc, cc⟩ rest

/-- `assemble_summary` (src/main.py:175-216): build the context, make the
initial completion call (consuming oracle index 0), extract
`choices[0].message.content`.  Any exception along the way is caught at
line 213, an error is printed and the process exits — `Except.error`. -/
def assemble_summary (env : Env) (issues : List Issue) :
    List Ev × Except Unit (Option String) :=
  match assembleContext issues with
  | Except.error _ => ([Ev.reportErr], Except.error ())
  | Except.ok ctx =>
    match env.compRes 0 with
    | CallResult.raise =>
      ([Ev.compCall env.instructions ctx, Ev.reportErr], Except.error ())
    | CallResult.response r =>
      match extractContent r with
      | Except.error _ =>
        ([Ev.compCall env.instructions ctx, Ev.reportErr], Except.error ())
      | Except.ok c => ([Ev.compCall env.instructions ctx], Except.ok c)

/-- A whole session as far as the claims reach: initial summary generation
(src/main.py:357) followed by the review loop (src/main.py:363).  A failed
initial generation is `sys.exit(1)` — `fatalExit`. -/
def runSession (env : Env) (issues : List Issue) (inputs : List String) :
    List Ev × Outcome :=
  match assemble_summary env issues with
  | (evs, Except.error _) => (evs, Outcome.fatalExit)
  | (evs, Except.ok content) =>
    let next := runLoop env ⟨Mode.decision, content, 0, 1⟩ inputs
    (evs ++ next.1, next.2.1)

/-- The completion calls of a trace, as (system, user) message pairs. -/
def compEvents : List Ev → List (String × String)
  | [] => []
  | Ev.compCall s u :: es => (s, u) :: compEvents es
  | _ :: es => compEvents es

/-- The publish calls of a trace, as the posted bodies. -/
def pubEvents : List Ev → List (Option String)
  | [] => []
  | Ev.pubCall t :: es => t :: pubEvents es
  | _ :: es => pubEvents es

/-- Python `xs[start:]` for an arbitrary integer start index: a negative
start counts from the end and clamps at 0. -/
def pySliceFrom {α : Type} (xs : List α) (start : Int) : List α :=
  if 0 ≤ start then xs.drop start.toNat
  else xs.drop (xs.length - min (Int.toNat (-start)) xs.length)

/-- The selection of src/main.py:168,
`comments[-n:] if len(comments) >= n else comments`, applied to the
fetched comment list of `fetch_recent_comments`. -/
def fetch_recent_comments {α : Type} (comments : List α) (n : Int) : List α :=
  if n ≤ (comments.length : Int) then pySliceFrom comments (-n) else comments

/-- A comment's `user` field neither null nor containing a null `login`. -/
def userOk : Field User → Bool
  | Field.null => false
  | Field.absent => true
  | Field.val u =>
    match u.login with
    | Field.null => false
    | _ => true

/-- A comment's `body` field not null. -/
def bodyOk : Field String → Bool
  | Field.null => false
  | _ => true

/-- A comment whose fields are each either absent or a proper value, so
that context assembly applies the documented defaults instead of raising. -/
def Comment.wf (c : Comment) : Bool :=
  userOk c.user && bodyOk c.body

/-- All comments of an issue are well-formed. -/
def Issue.wf (i : Issue) : Bool :=
  i.comments.all Comment.wf

/-- All issues are well-formed. -/
def wfIssues (issues : List Issue) : Bool :=
  issues.all Issue.wf

/-- Modelled from the spec's words (§4.1, claim C3): the author rendered
for a comment — the `login` value when present, the literal `"unknown"`
when the author is missing.  (Null fields are outside this claim's scope;
they are excluded by the well-formedness hypothesis.) -/
def specAuthor (c : Comment) : String :=
  match c.user with
  | Field.val u =>
    match u.login with
    | Field.val s => s
    | _ => "unknown"
  | _ => "unknown"

/-- Modelled from the spec's words (§4.1, claim C3): the body rendered for
a comment — its first 200 units, the empty string when missing. -/
def specBody (c : Comment) : String :=
  match c.body with
  | Field.val s => pyTruncate s 200
  | _ => ""

/-- Modelled from the spec's words (§4.1, claim C3): the per-comment line
`"- {author}: {body[:200]}\n"`. -/
def specCommentLine (c : Comment) : String :=
  "- " ++ specAuthor c ++ ": " ++ specBody c ++ "\n"

/-- Modelled from the spec's words: the comment lines of one issue,
concatenated in given order. -/
def specCommentLines : List Comment → String
  | [] => ""
  | c :: cs => specCommentLine c ++ specCommentLines cs

/-- Modelled from the spec's words (§4.1, claim C3): per issue in input
order, `"Issue: {title}\n"`, the comment lines, then a blank line. -/
def specAssemble : List Issue → String
  | [] => ""
  | i :: is =>
    ("Issue: " ++ i.title ++ "\n" ++ specCommentLines i.comments ++ "\n") ++
      specAssemble is

/-- The spec's example issue list (§8, accept-immediately scenario). -/
def issuesW : List Issue :=
  [⟨"Bug A", [⟨Field.val ⟨Field.val "alice"⟩, Field.val "fails on load"⟩]⟩]

/-- An issue list with a null-authored comment. -/
def issuesNull : List Issue :=
  [⟨"T", [⟨Field.null, Field.val "b"⟩]⟩]

/-- Oracle for the one-revision-then-accept scenario: the initial call
yields "S1", every later call "S2"; every publish succeeds. -/
def envC5 : Env :=
  ⟨fun _ => true,
   fun k => if k = 0 then CallResult.response ⟨[some "S1"]⟩
            else CallResult.response ⟨[some "S2"]⟩,
   "INSTR"⟩

/-- Oracle where every publish fails and revisions yield "S2" then "S3". -/
def envFail : Env :=
  ⟨fun _ => false,
   fun k => if k = 1 then CallResult.response ⟨[some "S2"]⟩
            else CallResult.response ⟨[some "S3"]⟩,
   "INSTR"⟩

/-- Oracle where every completion call raises. -/
def envRaise : Env :=
  ⟨fun _ => true, fun _ => CallResult.raise, "INSTR"⟩

/-- Oracle where every completion call returns an empty-string content. -/
def envEmpty : Env :=
  ⟨fun _ => true, fun _ => CallResult.response ⟨[some ""]⟩, "INSTR"⟩

/-- A well-formed comment's line agrees with the spec-modelled line. -/
theorem commentLine_wf (c : Comment) (h : c.wf = true) :
    commentLine c = Except.ok (specCommentLine c) := by
  rcases c with ⟨u, b⟩
  cases u with
  | absent =>
    cases b <;>
      simp_all [Comment.wf, userOk, bodyOk, commentLine, commentAuthor,
        commentBody, specCommentLine, specAuthor, specBody]
  | null => simp [Comment.wf, userOk] at h
  | val uu =>
    rcases uu with ⟨lg⟩
    cases lg <;> cases b <;>
      simp_all [Comment.wf, userOk, bodyOk, commentLine, commentAuthor,
        commentBody, specCommentLine, specAuthor, specBody]

/-- A well-formed comment list's block agrees with the spec-modelled lines. -/
theorem commentsBlock_wf (cs : List Comment) (h : cs.all Comment.wf = true) :
    commentsBlock cs = Except.ok (specCommentLines cs) := by
  induction cs with
  | nil => rfl
  | cons c cs ih =>
    rw [List.all_cons, Bool.and_eq_true] at h
    simp only [commentsBlock, commentLine_wf c h.1, ih h.2, specCommentLines]

/-- A comment with a null `user` or null `body` makes its line raise. -/
theorem commentLine_null (c : Comment)
    (h : c.user = Field.null ∨ c.body = Field.null) :
    commentLine c = Except.error () := by
  rcases h with h | h
  · simp [commentLine, commentAuthor, h]
  · cases hu : c.user with
    | absent => simp [commentLine, commentAuthor, commentBody, hu, h]
    | null => simp [commentLine, commentAuthor, hu]
    | val uu =>
      cases hl : uu.login with
      | absent => simp [commentLine, commentAuthor, commentBody, hu, hl, h]
      | null => simp [commentLine, commentAuthor, commentBody, hu, hl, h]
      | val s => simp [commentLine, commentAuthor, commentBody, hu, hl, h]

/-- A null field anywhere in a comment list makes the whole block raise. -/
theorem commentsBlock_null (cs : List Comment)
    (h : ∃ c ∈ cs, c.user = Field.null ∨ c.body = Field.null) :
    commentsBlock cs = Except.error () := by
  induction cs with
  | nil => simp at h
  | cons c cs ih =>
    rcases h with ⟨d, hd, hnull⟩
    rcases List.mem_cons.mp hd with rfl | hmem
    · simp [commentsBlock, commentLine_null d hnull]
    · cases hcl : commentLine c with
      | error e => cases e; simp [commentsBlock, hcl]
      | ok l => simp [commentsBlock, hcl, ih ⟨d, hmem, hnull⟩]

/-- A null field anywhere in the issue list makes context assembly raise. -/
theorem assembleContext_null (issues : List Issue)
    (h : ∃ i ∈ issues, ∃ c ∈ i.comments,
      c.user = Field.null ∨ c.body = Field.null) :
    assembleContext issues = Except.error () := by
  induction issues with
  | nil => simp at h
  | cons i is ih =>
    rcases h with ⟨j, hj, hnull⟩
    rcases List.mem_cons.mp hj with rfl | hmem
    · simp [assembleContext, issueBlock, commentsBlock_null j.comments hnull]
    · cases hib : issueBlock i with
      | error e => cases e; simp [assembleContext, hib]
      | ok b => simp [assembleContext, hib, ih ⟨j, hmem, hnull⟩]

/-- C1 (counterexample): with every publish failing, the operator answers
"y" at the revised decision, the publish attempt fails — and the session
does NOT end: a further revision and a second publish attempt follow in
the same run (two `pubCall`s in the trace), and the loop is back waiting
for input rather than in a terminal state. -/
theorem c1_counterexample :
    pubEvents (runLoop envFail ⟨Mode.decision, some "S1", 0, 1⟩
        ["n", "fix", "y", "fix2", "y"]).1 = [some "S2", some "S3"] ∧
    (runLoop envFail ⟨Mode.decision, some "S1", 0, 1⟩
        ["n", "fix", "y", "fix2", "y"]).2.1 = Outcome.blocked := by
  constructor <;> decide

/-- C1 (amended): a "y" at the initial `AwaitingDecision` triggers exactly
one publish attempt and the loop ends either way (`Published` or
`PublishFailed`).  A "y" at `AwaitingRevisedDecision` triggers one publish
attempt; on success the loop ends (`Published`), but on failure the loop
returns to `AwaitingInstruction` with the summary intact, so the operator
may revise further and retry publishing within the same run. -/
theorem c1_amended (env : Env) (sm : Option String) (pc cc : Nat) (i : String)
    (rest : List String) (hy : norm i = "y") :
    (runLoop env ⟨Mode.decision, sm, pc, cc⟩ (i :: rest) =
      ([Ev.pubCall sm],
        (if env.pubRes pc then Outcome.published else Outcome.publishFailed),
        ⟨Mode.decision, sm, pc + 1, cc⟩)) ∧
    (env.pubRes pc = true →
      runLoop env ⟨Mode.revised, sm, pc, cc⟩ (i :: rest) =
        ([Ev.pubCall sm], Outcome.published, ⟨Mode.revised, sm, pc + 1, cc⟩)) ∧
    (env.pubRes pc = false →
      runLoop env ⟨Mode.revised, sm, pc, cc⟩ (i :: rest) =
        (Ev.pubCall sm :: (runLoop env ⟨Mode.instruction, sm, pc + 1, cc⟩ rest).1,
          (runLoop env ⟨Mode.instruction, sm, pc + 1, cc⟩ rest).2.1,
          (runLoop env ⟨Mode.instruction, sm, pc + 1, cc⟩ rest).2.2)) := by
  refine ⟨?_, ?_, ?_⟩
  · simp [runLoop, hy]
  · intro hp; simp [runLoop, hy, hp]
  · intro hp; simp [runLoop, hy, hp]

/-- C1 (witness): a concrete "y" at the initial decision with a failing
publisher makes exactly one publish attempt and ends in `PublishFailed`. -/
theorem c1_witness :
    runLoop envFail ⟨Mode.decision, some "S1", 0, 1⟩ ["y"] =
      ([Ev.pubCall (some "S1")], Outcome.publishFailed,
        ⟨Mode.decision, some "S1", 1, 1⟩) := by
  have h := (c1_amended envFail (some "S1") 0 1 "y" [] (by decide)).1
  rw [h]; decide

/-- C2 (counterexample): a completion call that does not fail can yield no
usable text — a response whose first choice has empty content is adopted
as the Summary without any error, and a null content likewise extracts
without failing. -/
theorem c2_counterexample :
    (assemble_summary envEmpty issuesW).2 = Except.ok (some "") ∧
    extractContent ⟨[none]⟩ = Except.ok none :=
  ⟨rfl, rfl⟩

/-- C2 (amended): a completion call fails (the exception being caught by
the caller) exactly when the remote call raises or the response has an
empty `choices` list; when a first choice exists, its content is adopted
as the Summary verbatim — even when it is empty or null — both by the
initial generation and by the revision path. -/
theorem c2_amended (env : Env) (issues : List Issue) (ctx : String)
    (hctx : assembleContext issues = Except.ok ctx) :
    ((assemble_summary env issues).2 = Except.error () ↔
      env.compRes 0 = CallResult.raise ∨
        env.compRes 0 = CallResult.response ⟨[]⟩) ∧
    (∀ (c : Option String) (cs : List (Option String)),
      env.compRes 0 = CallResult.response ⟨c :: cs⟩ →
      (assemble_summary env issues).2 = Except.ok c) ∧
    (∀ (sm : Option String) (pc cc : Nat) (i : String) (rest : List String)
        (c : Option String) (cs : List (Option String)),
      ¬ norm i = "done" → env.compRes cc = CallResult.response ⟨c :: cs⟩ →
      runLoop env ⟨Mode.instruction, sm, pc, cc⟩ (i :: rest) =
        (Ev.compCall env.instructions (revPrompt sm i) ::
            (runLoop env ⟨Mode.revised, c, pc, cc + 1⟩ rest).1,
          (runLoop env ⟨Mode.revised, c, pc, cc + 1⟩ rest).2.1,
          (runLoop env ⟨Mode.revised, c, pc, cc + 1⟩ rest).2.2)) := by
  refine ⟨?_, ?_, ?_⟩
  · cases hc : env.compRes 0 with
    | raise => simp [assemble_summary, hctx, hc]
    | response r =>
      rcases r with ⟨ch⟩
      cases ch with
      | nil => simp [assemble_summary, hctx, hc, extractContent]
      | cons c cs => simp [assemble_summary, hctx, hc, extractContent]
  · intro c cs hc
    simp [assemble_summary, hctx, hc, extractContent]
  · intro sm pc cc i rest c cs hd hc
    simp [runLoop, hd, hc, extractContent]

/-- C2 (witness): with a raising completion oracle, the initial summary
generation fails. -/
theorem c2_witness :
    (assemble_summary envRaise issuesW).2 = Except.error () :=
  (c2_amended envRaise issuesW "Issue: Bug A\n- alice: fails on load\n\n"
    rfl).1.mpr (Or.inl rfl)

/-- C3: for every issue list whose fields are present-or-absent (no null
values, which claim C9 covers), the assembled context is exactly the
concatenation, per issue in input order, of `"Issue: {title}\n"`, then one
line `"- {author}: {body[:200]}\n"` per comment in given order (missing
author rendered `"unknown"`, missing body as the empty string, a long body
contributing exactly its first 200 characters), followed by a blank line —
i.e. it coincides with the spec-modelled pure function `specAssemble`;
determinism is immediate since both are functions of the input alone. -/
theorem c3_assemble (issues : List Issue) (h : wfIssues issues = true) :
    assembleContext issues = Except.ok (specAssemble issues) := by
  induction issues with
  | nil => rfl
  | cons i is ih =>
    rw [wfIssues, List.all_cons, Bool.and_eq_true] at h
    have h1 : i.comments.all Comment.wf = true := h.1
    have h2 : wfIssues is = true := h.2
    simp only [assembleContext, issueBlock, commentsBlock_wf i.comments h1,
      ih h2, specAssemble]

/-- C3 (witness): the spec's §8 example issue assembles to exactly the
string the spec displays. -/
theorem c3_witness :
    assembleContext issuesW =
      Except.ok "Issue: Bug A\n- alice: fails on load\n\n" := by
  rw [c3_assemble issuesW (by decide)]
  congr 1

/-- C4: in `AwaitingInstruction`, any input other than "done" triggers a
completion call whose system content is the fixed Instructions and whose
user content is exactly
`"Here is the current summary:\n{Summary}\n\nPlease revise it as follows:
{instruction}"` with the current summary verbatim (no accumulated
history); on success the Summary is replaced — never merged — by the
response content. -/
theorem c4_revision_prompt (env : Env) (s : String) (pc cc : Nat) (i : String)
    (rest : List String) (hd : ¬ norm i = "done") :
    (∃ evs out st2,
      runLoop env ⟨Mode.instruction, some s, pc, cc⟩ (i :: rest) =
        (Ev.compCall env.instructions
            ("Here is the current summary:\n" ++ s ++
              "\n\nPlease revise it as follows: " ++ i) :: evs, out, st2)) ∧
    (∀ (c : Option String) (cs : List (Option String)),
      env.compRes cc = CallResult.response ⟨c :: cs⟩ →
      runLoop env ⟨Mode.instruction, some s, pc, cc⟩ (i :: rest) =
        (Ev.compCall env.instructions
            ("Here is the current summary:\n" ++ s ++
              "\n\nPlease revise it as follows: " ++ i) ::
            (runLoop env ⟨Mode.revised, c, pc, cc + 1⟩ rest).1,
          (runLoop env ⟨Mode.revised, c, pc, cc + 1⟩ rest).2.1,
          (runLoop env ⟨Mode.revised, c, pc, cc + 1⟩ rest).2.2)) := by
  constructor
  · cases hc : env.compRes cc with
    | raise =>
      exact ⟨Ev.reportErr ::
          (runLoop env ⟨Mode.instruction, some s, pc, cc + 1⟩ rest).1,
        (runLoop env ⟨Mode.instruction, some s, pc, cc + 1⟩ rest).2.1,
        (runLoop env ⟨Mode.instruction, some s, pc, cc + 1⟩ rest).2.2,
        by simp [runLoop, hd, hc, revPrompt, pyStr]⟩
    | response r =>
      rcases r with ⟨ch⟩
      cases ch with
      | nil =>
        exact ⟨Ev.reportErr ::
            (runLoop env ⟨Mode.instruction, some s, pc, cc + 1⟩ rest).1,
          (runLoop env ⟨Mode.instruction, some s, pc, cc + 1⟩ rest).2.1,
          (runLoop env ⟨Mode.instruction, some s, pc, cc + 1⟩ rest).2.2,
          by simp [runLoop, hd, hc, extractContent, revPrompt, pyStr]⟩
      | cons c cs =>
        exact ⟨(runLoop env ⟨Mode.revised, c, pc, cc + 1⟩ rest).1,
          (runLoop env ⟨Mode.revised, c, pc, cc + 1⟩ rest).2.1,
          (runLoop env ⟨Mode.revised, c, pc, cc + 1⟩ rest).2.2,
          by simp [runLoop, hd, hc, extractContent, revPrompt, pyStr]⟩
  · intro c cs hc
    simp [runLoop, hd, hc, extractContent, revPrompt, pyStr]

/-- C4 (witness): a concrete revision instruction produces exactly the
claimed user content and the summary is replaced by the response. -/
theorem c4_witness :
    runLoop envC5 ⟨Mode.instruction, some "S1", 0, 1⟩ ["make it shorter"] =
      ([Ev.compCall "INSTR"
          "Here is the current summary:\nS1\n\nPlease revise it as follows: make it shorter"],
        Outcome.blocked, ⟨Mode.revised, some "S2", 0, 2⟩) := by
  have h := (c4_revision_prompt envC5 "S1" 0 1 "make it shorter" []
      (by decide)).2 (some "S2") [] (by decide)
  rw [h]; decide

/-- C5: on operator inputs "n", "make it shorter", "y" with both
completions and the publish succeeding, exactly two completion calls are
made in total (initial plus one revision), the revision call's user
content contains the literal substring
"Please revise it as follows: make it shorter", and publish is called
exactly once, with the revised (second) summary text. -/
theorem c5_scenario :
    compEvents (runSession envC5 issuesW ["n", "make it shorter", "y"]).1 =
      [("INSTR", "Issue: Bug A\n- alice: fails on load\n\n"),
        ("INSTR",
          "Here is the current summary:\nS1\n\nPlease revise it as follows: make it shorter")] ∧
    (∃ pre post : String,
      "Here is the current summary:\nS1\n\nPlease revise it as follows: make it shorter" =
        pre ++ "Please revise it as follows: make it shorter" ++ post) ∧
    pubEvents (runSession envC5 issuesW ["n", "make it shorter", "y"]).1 =
      [some "S2"] ∧
    (runSession envC5 issuesW ["n", "make it shorter", "y"]).2 =
      Outcome.published := by
  refine ⟨by decide, ⟨"Here is the current summary:\nS1\n\n", "", by decide⟩,
    by decide, by decide⟩

/-- C6: entering "done" (case-insensitive, trimmed) in
`AwaitingInstruction` immediately ends the loop in the terminal state
`Aborted` with no publish call; in particular the session
"n" then "done" makes no publish call at all. -/
theorem c6_done_aborts :
    (∀ (env : Env) (sm : Option String) (pc cc : Nat) (i : String)
        (rest : List String), norm i = "done" →
      runLoop env ⟨Mode.instruction, sm, pc, cc⟩ (i :: rest) =
        ([], Outcome.aborted, ⟨Mode.instruction, sm, pc, cc⟩)) ∧
    pubEvents (runSession envC5 issuesW ["n", "done"]).1 = [] ∧
    (runSession envC5 issuesW ["n", "done"]).2 = Outcome.aborted := by
  refine ⟨?_, by decide, by decide⟩
  intro env sm pc cc i rest hd
  simp [runLoop, hd]

/-- C6 (witness): the mixed-case, padded input " Done " aborts at the
instruction prompt, ignoring any further queued input. -/
theorem c6_witness :
    runLoop envC5 ⟨Mode.instruction, some "S1", 0, 1⟩ [" Done ", "y"] =
      ([], Outcome.aborted, ⟨Mode.instruction, some "S1", 0, 1⟩) :=
  c6_done_aborts.1 envC5 (some "S1") 0 1 " Done " ["y"] (by decide)

/-- C7: when a revision completion call fails (remote raise or an empty
`choices` list), the error is reported to the operator and the loop
continues in `AwaitingInstruction` with the Summary unchanged — the
continuation state differs from the current one only in the completion
call counter. -/
theorem c7_revision_failure (env : Env) (sm : Option String) (pc cc : Nat)
    (i : String) (rest : List String) (hd : ¬ norm i = "done")
    (hf : env.compRes cc = CallResult.raise ∨
      env.compRes cc = CallResult.response ⟨[]⟩) :
    runLoop env ⟨Mode.instruction, sm, pc, cc⟩ (i :: rest) =
      (Ev.compCall env.instructions (revPrompt sm i) :: Ev.reportErr ::
          (runLoop env ⟨Mode.instruction, sm, pc, cc + 1⟩ rest).1,
        (runLoop env ⟨Mode.instruction, sm, pc, cc + 1⟩ rest).2.1,
        (runLoop env ⟨Mode.instruction, sm, pc, cc + 1⟩ rest).2.2) := by
  rcases hf with hf | hf <;> simp [runLoop, hd, hf, extractContent]

/-- C7 (witness): a concrete raising revision call reports the error and
re-prompts with the same summary. -/
theorem c7_witness :
    runLoop envRaise ⟨Mode.instruction, some "S1", 0, 1⟩ ["fix"] =
      ([Ev.compCall "INSTR" (revPrompt (some "S1") "fix"), Ev.reportErr],
        Outcome.blocked, ⟨Mode.instruction, some "S1", 0, 2⟩) := by
  have h := c7_revision_failure envRaise (some "S1") 0 1 "fix" []
      (by decide) (Or.inl rfl)
  rw [h]; decide

/-- C8: the loop is a total function of the finite input list (it is
defined by structural recursion on the inputs, so it never fails to
produce a result), and it reaches a terminal state immediately — ignoring
any further queued input — when the operator enters "y" at a decision
point and the publish succeeds (`Published`), or "done" at
`AwaitingInstruction` (`Aborted`). -/
theorem c8_terminal :
    (∀ (env : Env) (sm : Option String) (pc cc : Nat) (i : String)
        (rest : List String), norm i = "y" → env.pubRes pc = true →
      (runLoop env ⟨Mode.decision, sm, pc, cc⟩ (i :: rest)).2.1 =
          Outcome.published ∧
        (runLoop env ⟨Mode.revised, sm, pc, cc⟩ (i :: rest)).2.1 =
          Outcome.published) ∧
    (∀ (env : Env) (sm : Option String) (pc cc : Nat) (i : String)
        (rest : List String), norm i = "done" →
      (runLoop env ⟨Mode.instruction, sm, pc, cc⟩ (i :: rest)).2.1 =
        Outcome.aborted) := by
  constructor
  · intro env sm pc cc i rest hy hp
    constructor <;> simp [runLoop, hy, hp]
  · intro env sm pc cc i rest hd
    simp [runLoop, hd]

/-- C8 (witness): a concrete "y" with a succeeding publisher terminates in
`Published` with input still queued. -/
theorem c8_witness :
    (runLoop envC5 ⟨Mode.decision, some "S1", 0, 1⟩ ["y", "ignored"]).2.1 =
      Outcome.published :=
  (c8_terminal.1 envC5 (some "S1") 0 1 "y" ["ignored"] (by decide) rfl).1

/-- C9: a comment whose `user` (or `body`) field is present but null makes
context assembly raise instead of applying the `"unknown"` / empty-string
defaults; the exception is caught by `assemble_summary`'s handler, an
error is reported and the process exits fatally — the whole session is
aborted by a single such comment, before any completion call is made. -/
theorem c9_null_fatal (env : Env) (issues : List Issue) (inputs : List String)
    (h : ∃ i ∈ issues, ∃ c ∈ i.comments,
      c.user = Field.null ∨ c.body = Field.null) :
    assembleContext issues = Except.error () ∧
    runSession env issues inputs = ([Ev.reportErr], Outcome.fatalExit) := by
  have hctx := assembleContext_null issues h
  exact ⟨hctx, by simp [runSession, assemble_summary, hctx]⟩

/-- C9 (witness): a single null-authored comment aborts the session. -/
theorem c9_witness :
    runSession envC5 issuesNull [] = ([Ev.reportErr], Outcome.fatalExit) :=
  (c9_null_fatal envC5 issuesNull [] (by decide)).2

/-- C10: for n ≥ 1 the selection `comments[-n:] if len(comments) >= n else
comments` returns exactly the last min(n, length) comments in order (the
suffix obtained by dropping `length - min n length`); for n = 0 the guard
holds and `comments[-0:]` is the whole list, so requesting zero recent
comments yields all comments rather than none. -/
theorem c10_recent_selection {α : Type} (xs : List α) (n : Int) :
    (1 ≤ n →
      fetch_recent_comments xs n =
        xs.drop (xs.length - min n.toNat xs.length)) ∧
    fetch_recent_comments xs 0 = xs := by
  constructor
  · intro h1
    by_cases hle : n ≤ (xs.length : Int)
    · have hneg : ¬ (0 ≤ -n) := by omega
      simp [fetch_recent_comments, pySliceFrom, hle, hneg]
    · simp only [fetch_recent_comments, if_neg hle]
      have hz : xs.length - min n.toNat xs.length = 0 := by omega
      rw [hz, List.drop_zero]
  · simp [fetch_recent_comments, pySliceFrom]

/-- C10 (witness): the last-2 selection and the n = 0 behaviour on a
concrete three-element list. -/
theorem c10_witness :
    fetch_recent_comments [1, 2, 3] (2 : Int) = [2, 3] ∧
    fetch_recent_comments [1, 2, 3] (0 : Int) = [1, 2, 3] := by
  constructor
  · have h := (c10_recent_selection [1, 2, 3] 2).1 (by decide)
    rw [h]; decide
  · exact (c10_recent_selection [1, 2, 3] 0).2

end UpdateGenerator
